import Mathlib

/-!
Verification of the Salesforce SOQL query executor (soql-app.py).

The development shallowly embeds the core of the application:
credential resolution (`load_auth_credentials` plus the normalization
performed in `main`), request-URL construction (`urljoin` over the
endpoint path), the pagination loop (`fetch_data`), and the result
materializer (the DataFrame built from the aggregated records).

The remote server is modelled as an oracle: a list of responses,
consumed one per issued request, in order.  Python dictionaries holding
credentials are modelled by a structure with one `Option String` field
per accepted key; Python truthiness of strings (empty string is falsy)
is modelled explicitly.
-/

namespace SoqlApp

/-- Whitespace characters stripped by Python's `str.strip()`. -/
def pyWhitespace (c : Char) : Bool :=
  c == ' ' || c == '\t' || c == '\n' || c == '\r' || c == '\x0b' || c == '\x0c'

/-- Model of Python `str.strip()` on the underlying character list:
drop whitespace from the front, then from the back. -/
def stripL (l : List Char) : List Char :=
  ((l.dropWhile pyWhitespace).reverse.dropWhile pyWhitespace).reverse

/-- Model of Python `str.strip()` on strings. -/
def pyStrip (s : String) : String :=
  ⟨stripL s.data⟩

/-- Boolean string-prefix test, used to model Python `str.startswith`. -/
def startsWithStr (pre s : String) : Bool :=
  pre.data.isPrefixOf s.data

/-- Python truthiness of an optional string: `None` and the empty string
are falsy, every other string is truthy. -/
def truthy : Option String → Bool
  | none => false
  | some s => !(s == "")

/-- Model of the Python expression `a or b` for optional strings:
the left operand when it is truthy, otherwise the right operand. -/
def pyOr (a b : Option String) : Option String :=
  if truthy a then a else b

/-- The uploaded auth.json blob, modelled as one optional value per
accepted key (`d.get(key)` returns `none` when the key is absent). -/
structure AuthData where
  access_token : Option String
  accessToken : Option String
  instance_url : Option String
  instanceUrl : Option String
  deriving DecidableEq, Repr

/-- Embedding of `load_auth_credentials` (soql-app.py lines 18-37):
alias-tolerant extraction of the access token and the instance URL,
failing with the fixed `ValueError` message when either concept is
absent (or empty, which Python truthiness treats the same) under both
of its accepted keys.  Returns the raw token/URL pair. -/
def load_auth_credentials (auth_data : AuthData) : Except String (String × String) :=
  let access_token := pyOr auth_data.access_token auth_data.accessToken
  let instance_url := pyOr auth_data.instance_url auth_data.instanceUrl
  if !truthy access_token || !truthy instance_url then
    Except.error "Missing required credentials in auth.json"
  else
    Except.ok (access_token.getD "", instance_url.getD "")

/-- Scheme test from soql-app.py line 101:
`instance_url.startswith(('http://', 'https://'))`. -/
def hasScheme (s : String) : Bool :=
  startsWithStr "http://" s || startsWithStr "https://" s

/-- Embedding of the endpoint normalization in `main`
(soql-app.py lines 98-102): strip the raw instance URL, then prepend
`https://` unless it already starts with `http://` or `https://`. -/
def normalizeInstanceUrl (raw : String) : String :=
  let instance_url := pyStrip raw
  if hasScheme instance_url then instance_url
  else "https://" ++ instance_url

/-- Normalized credentials: the access token and the scheme-qualified
base URL, as `main` uses them after lines 97-102. -/
structure Credentials where
  accessToken : String
  baseUrl : String
  deriving DecidableEq, Repr

/-- Credential resolution as the composition the app performs:
`load_auth_credentials` followed by the instance-URL normalization in
`main`. -/
def resolveCredentials (auth_data : AuthData) : Except String Credentials :=
  match load_auth_credentials auth_data with
  | Except.error e => Except.error e
  | Except.ok (tok, url) => Except.ok ⟨tok, normalizeInstanceUrl url⟩

/-- Embedding of the endpoint-path selection (soql-app.py lines 162-164). -/
def endpointPath (api_version : String) (use_tooling_api : Bool) : String :=
  if use_tooling_api then "/services/data/v" ++ api_version ++ "/tooling/query"
  else "/services/data/v" ++ api_version ++ "/query"

/-- Drop the first `n` characters of a string. -/
def dropChars (n : Nat) (s : String) : String :=
  ⟨s.data.drop n⟩

/-- Characters that may appear in the authority (host) component of a
URL; `/`, `?` and `#` end the authority. -/
def isAuthorityChar (c : Char) : Bool :=
  !(c == '/' || c == '?' || c == '#')

/-- Split a URL into its scheme part and the remainder, recognizing the
two schemes the app ever produces. -/
def schemeSplitOf (url : String) : Option (String × String) :=
  if startsWithStr "https://" url then some ("https://", dropChars 8 url)
  else if startsWithStr "http://" url then some ("http://", dropChars 7 url)
  else none

/-- The authority (scheme-less host) component at the front of `rest`. -/
def authorityOf (rest : String) : String :=
  ⟨rest.data.takeWhile isAuthorityChar⟩

/-- Model of Python `urllib.parse.urljoin`, restricted to the reference
shapes this app produces: a reference that is itself an absolute
`http://` or `https://` URL is returned unchanged, and a path-absolute
reference (one starting with `/`) replaces everything after the
authority of the base URL.  The base URL always carries an explicit
scheme here, because the app normalizes it before any join. -/
def urljoin (base ref : String) : String :=
  if startsWithStr "http://" ref || startsWithStr "https://" ref then ref
  else
    match schemeSplitOf base with
    | some (scheme, rest) => scheme ++ authorityOf rest ++ ref
    | none => ref

/-- Embedding of the initial URL construction in `main`
(soql-app.py lines 162-167): the endpoint path with the literal query
text appended under key `q`, resolved against the instance URL.  No
percent-encoding is applied anywhere. -/
def buildFullUrl (instance_url api_version soql_query : String) (use_tooling_api : Bool) : String :=
  urljoin instance_url (endpointPath api_version use_tooling_api ++ "?q=" ++ soql_query)

/-- One server response, as the pagination loop observes it: the HTTP
status code, the raw response text (used in the error message), and the
parsed JSON body restricted to the two keys the loop reads — `records`
(absent key modelled as the empty list, matching `.get('records', [])`)
and `nextRecordsUrl` (absent key modelled as `none`, matching
`.get('nextRecordsUrl', None)`). -/
structure SFResponse (α : Type) where
  statusCode : Nat
  text : String
  records : List α
  nextRecordsUrl : Option String
  deriving DecidableEq, Repr

/-- Outcome of `fetch_data`: either the aggregated records together with
the last page body (the Python return value `(all_records,
last_response)`), or the fetch error path (the Python return value
`(None, None)`, after `st.error` reported the status code and body), or
`noResponse` when the oracle has no response for an issued request
(modelling a transport-level failure of `requests.get`). -/
inductive FetchOutcome (α : Type) where
  | success (records : List α) (lastResponse : SFResponse α)
  | fetchError (status : Nat) (body : String)
  | noResponse
  deriving DecidableEq, Repr

/-- Embedding of the `while full_url:` loop of `fetch_data`
(soql-app.py lines 49-68), with the server as a positional oracle.
Returns the outcome together with the number of requests issued.
Each iteration issues one request; a non-200 status aborts with the
error outcome (discarding `acc`); otherwise the page's records are
appended and, when `all_pages` is set and the page carries a non-empty
`nextRecordsUrl` (Python truthiness again), the loop continues. -/
def fetchLoop {α : Type} (all_pages : Bool) :
    List (SFResponse α) → List α → FetchOutcome α × Nat
  | [], _ => (FetchOutcome.noResponse, 0)
  | r :: rest, acc =>
    if r.statusCode ≠ 200 then (FetchOutcome.fetchError r.statusCode r.text, 1)
    else
      let acc2 := acc ++ r.records
      if all_pages then
        match r.nextRecordsUrl with
        | some u =>
          if u = "" then (FetchOutcome.success acc2 r, 1)
          else
            let next := fetchLoop all_pages rest acc2
            (next.1, next.2 + 1)
        | none => (FetchOutcome.success acc2 r, 1)
      else (FetchOutcome.success acc2 r, 1)

/-- Embedding of `fetch_data` (soql-app.py lines 39-68): run the
pagination loop starting from the empty aggregate. -/
def fetch_data {α : Type} (responses : List (SFResponse α)) (all_pages : Bool) :
    FetchOutcome α × Nat :=
  fetchLoop all_pages responses []

/-- A page that lets the loop continue: success status and a non-empty
continuation reference. -/
def continuesPage {α : Type} (p : SFResponse α) : Bool :=
  p.statusCode == 200 &&
    (match p.nextRecordsUrl with
     | some u => !(u == "")
     | none => false)

/-- A well-formed page chain: every page is a success, every page but
the last carries a (non-empty) continuation reference, and the last
page omits it. -/
def isChain {α : Type} : List (SFResponse α) → Bool
  | [] => false
  | [p] => p.statusCode == 200 && p.nextRecordsUrl == none
  | p :: q :: rest => continuesPage p && isChain (q :: rest)

/-- Concatenation of the record lists of a list of pages, in page order,
preserving record order within each page. -/
def allRecords {α : Type} : List (SFResponse α) → List α
  | [] => []
  | p :: rest => p.records ++ allRecords rest

/-- A record: a mapping from field names to (scalar) values, modelled as
an association list. -/
abbrev Record := List (String × String)

/-- Add a field name to the column list unless it is already present. -/
def insertField (cols : List String) (k : String) : List String :=
  if cols.contains k then cols else cols ++ [k]

/-- Extend the column list with the field names of one record, in the
record's own field order. -/
def recordColumns (cols : List String) (r : Record) : List String :=
  r.foldl (fun acc kv => insertField acc kv.1) cols

/-- The union of all field names across all records, in first-seen
order.  This is how `pd.DataFrame(list_of_dicts)` determines its
columns; the materializer in `main` (soql-app.py lines 183-187) is the
library call `pd.DataFrame(data)`, modelled here from pandas'
documented behaviour on a list of dicts. -/
def unionColumns (records : List Record) : List String :=
  records.foldl recordColumns []

/-- The tabular view of the aggregated records: the column list and one
row per record, each row aligned to the columns, with `none` standing
for the null/missing marker (NaN) pandas inserts for an absent field. -/
structure Table where
  columns : List String
  rows : List (List (Option String))
  deriving DecidableEq, Repr

/-- Build the DataFrame-like table from the aggregated records
(model of `pd.DataFrame(data)` in soql-app.py line 184). -/
def buildTable (records : List Record) : Table :=
  let cols := unionColumns records
  ⟨cols, records.map (fun r => cols.map (fun c => r.lookup c))⟩

/-- Observable outcome of one query execution in `main`
(soql-app.py lines 95-212).  `displayed` is the only outcome in which
the DataFrame is shown and the CSV download is produced; `fetchFailed`
carries the `st.error` message emitted for a non-200 response;
`noData` is the `st.warning("No data found.")` outcome; and
`transportFailed` is the `except` branch reached when the network call
itself fails (modelled by oracle exhaustion). -/
inductive MainResult where
  | credentialError (msg : String)
  | queryMissing
  | fetchFailed (msg : String)
  | transportFailed
  | displayed (df : Table)
  | noData
  deriving DecidableEq, Repr

/-- Embedding of the per-execution control flow of `main`: resolve the
credentials, reject an empty query, fetch, then materialize.  On a
fetch error `main` returns before building any DataFrame or CSV
(`if data is None: return`, soql-app.py lines 179-180). -/
def runMain (auth_data : AuthData) (soql_query api_version : String)
    (use_tooling_api all_pages : Bool) (responses : List (SFResponse Record)) : MainResult :=
  match resolveCredentials auth_data with
  | Except.error e => MainResult.credentialError e
  | Except.ok _creds =>
    if soql_query = "" then MainResult.queryMissing
    else
      match fetch_data responses all_pages with
      | (FetchOutcome.fetchError status body, _) =>
        MainResult.fetchFailed ("Failed to fetch data: " ++ Nat.repr status ++ " " ++ body)
      | (FetchOutcome.noResponse, _) => MainResult.transportFailed
      | (FetchOutcome.success records _last, _) =>
        if records.isEmpty then MainResult.noData
        else MainResult.displayed (buildTable records)

/-- A value under one key of the credential blob that the app treats as
absent: the key is missing, or its value is the empty string. -/
def absentVal (o : Option String) : Prop :=
  o = none ∨ o = some ""

/-!
Theorems.  Each claim of the specification is settled by exactly one
theorem below; shared helper lemmas precede them.
-/

theorem truthy_eq_false_of_absent {o : Option String} (h : absentVal o) :
    truthy o = false := by
  rcases h with h | h <;> subst h <;> rfl

theorem resolveCredentials_missing (d : AuthData)
    (h : (absentVal d.access_token ∧ absentVal d.accessToken)
        ∨ (absentVal d.instance_url ∧ absentVal d.instanceUrl)) :
    resolveCredentials d = Except.error "Missing required credentials in auth.json" := by
  rcases h with ⟨h1, h2⟩ | ⟨h1, h2⟩ <;>
    simp [resolveCredentials, load_auth_credentials, pyOr,
      truthy_eq_false_of_absent h1, truthy_eq_false_of_absent h2]

/-- C4: credential blobs carrying the same token and endpoint under the
snake_case keys and under the camelCase keys resolve identically; an
empty-string value under one alias is treated exactly like an absent
key (the other alias is consulted); and resolution fails when a concept
is absent or empty under both of its aliases. -/
theorem C4_alias_resolution (t u : String) :
    resolveCredentials ⟨some t, none, some u, none⟩
        = resolveCredentials ⟨none, some t, none, some u⟩
    ∧ (∀ x, pyOr (some "") x = x ∧ pyOr none x = x)
    ∧ (∀ d : AuthData,
        (absentVal d.access_token ∧ absentVal d.accessToken)
          ∨ (absentVal d.instance_url ∧ absentVal d.instanceUrl)
        → ∃ msg, resolveCredentials d = Except.error msg) := by
  refine ⟨?_, ?_, ?_⟩
  · by_cases ht : t = "" <;> by_cases hu : u = "" <;>
      simp [resolveCredentials, load_auth_credentials, pyOr, truthy, ht, hu]
  · intro x
    exact ⟨rfl, rfl⟩
  · intro d h
    exact ⟨_, resolveCredentials_missing d h⟩

theorem C4_alias_resolution_witness :
    resolveCredentials ⟨some "tok1", none, some "my.example.org", none⟩
        = resolveCredentials ⟨none, some "tok1", none, some "my.example.org"⟩
    ∧ pyOr (some "") (some "tok1") = some "tok1"
    ∧ ∃ msg, resolveCredentials ⟨some "", none, none, some ""⟩ = Except.error msg :=
  ⟨(C4_alias_resolution "tok1" "my.example.org").1,
    ((C4_alias_resolution "tok1" "my.example.org").2.1 (some "tok1")).1,
    (C4_alias_resolution "tok1" "my.example.org").2.2
      ⟨some "", none, none, some ""⟩
      (Or.inl ⟨Or.inr rfl, Or.inl rfl⟩)⟩

/-- C10: when both aliases of a concept are present with non-empty
values, resolution takes the snake_case value (`access_token`,
`instance_url`) and the camelCase values are ignored: the result is the
same as if the camelCase keys were absent. -/
theorem C10_snake_case_wins (t1 t2 u1 u2 : String)
    (h1 : t1 ≠ "") (h2 : t2 ≠ "") (h3 : u1 ≠ "") (h4 : u2 ≠ "") :
    resolveCredentials ⟨some t1, some t2, some u1, some u2⟩
        = Except.ok ⟨t1, normalizeInstanceUrl u1⟩
    ∧ resolveCredentials ⟨some t1, some t2, some u1, some u2⟩
        = resolveCredentials ⟨some t1, none, some u1, none⟩ := by
  constructor <;>
    simp [resolveCredentials, load_auth_credentials, pyOr, truthy, h1, h3]

theorem C10_snake_case_wins_witness :
    resolveCredentials ⟨some "tok1", some "tok2", some "a.example", some "b.example"⟩
        = Except.ok ⟨"tok1", normalizeInstanceUrl "a.example"⟩
    ∧ resolveCredentials ⟨some "tok1", some "tok2", some "a.example", some "b.example"⟩
        = resolveCredentials ⟨some "tok1", none, some "a.example", none⟩ :=
  C10_snake_case_wins "tok1" "tok2" "a.example" "b.example"
    (by decide) (by decide) (by decide) (by decide)

/-- C9 (counterexample): a blob missing only the endpoint and a blob
missing only the token produce the very same error value, with the
fixed message of soql-app.py line 32 — so the error does not report
which field is the offending one, contrary to the claim. -/
theorem C9_counterexample :
    resolveCredentials ⟨some "tok1", none, none, none⟩
        = resolveCredentials ⟨none, none, some "my.example.org", none⟩
    ∧ resolveCredentials ⟨some "tok1", none, none, none⟩
        = Except.error "Missing required credentials in auth.json" :=
  ⟨rfl, rfl⟩

/-- C9 (amended): whenever a required concept cannot be resolved from
the blob, resolution fails with the one fixed message
`Missing required credentials in auth.json`, identical no matter which
field is the missing one. -/
theorem C9_amended_fixed_message (d : AuthData)
    (h : (absentVal d.access_token ∧ absentVal d.accessToken)
        ∨ (absentVal d.instance_url ∧ absentVal d.instanceUrl)) :
    resolveCredentials d = Except.error "Missing required credentials in auth.json" :=
  resolveCredentials_missing d h

theorem C9_amended_fixed_message_witness :
    resolveCredentials ⟨none, some "", some "my.example.org", none⟩
        = Except.error "Missing required credentials in auth.json" :=
  C9_amended_fixed_message ⟨none, some "", some "my.example.org", none⟩
    (Or.inl ⟨Or.inl rfl, Or.inr rfl⟩)

theorem continuesPage_spec {α : Type} {p : SFResponse α} (h : continuesPage p = true) :
    p.statusCode = 200 ∧ ∃ u, p.nextRecordsUrl = some u ∧ u ≠ "" := by
  unfold continuesPage at h
  rw [Bool.and_eq_true] at h
  obtain ⟨h1, h2⟩ := h
  refine ⟨by simpa using h1, ?_⟩
  cases hn : p.nextRecordsUrl with
  | none => rw [hn] at h2; simp at h2
  | some u =>
    rw [hn] at h2
    simp at h2
    exact ⟨u, rfl, h2⟩

theorem fetchLoop_cons_continue {α : Type} (p : SFResponse α) (rest : List (SFResponse α))
    (acc : List α) (hs : p.statusCode = 200) {u : String}
    (hu : p.nextRecordsUrl = some u) (hune : u ≠ "") :
    fetchLoop true (p :: rest) acc
      = ((fetchLoop true rest (acc ++ p.records)).1,
          (fetchLoop true rest (acc ++ p.records)).2 + 1) := by
  simp [fetchLoop, hs, hu, hune]

theorem fetchLoop_chain {α : Type} (ps : List (SFResponse α)) (acc : List α)
    (hc : isChain ps = true) (hne : ps ≠ []) :
    fetchLoop true ps acc
      = (FetchOutcome.success (acc ++ allRecords ps) (ps.getLast hne), ps.length) := by
  induction ps generalizing acc with
  | nil => simp [isChain] at hc
  | cons p rest ih =>
    cases rest with
    | nil =>
      have h12 : p.statusCode = 200 ∧ p.nextRecordsUrl = none := by
        simpa [isChain] using hc
      simp [fetchLoop, h12.1, h12.2, allRecords]
    | cons q rest2 =>
      have hc' : continuesPage p = true ∧ isChain (q :: rest2) = true := by
        simpa [isChain, Bool.and_eq_true] using hc
      obtain ⟨hs, ⟨u, hu, hune⟩⟩ := continuesPage_spec hc'.1
      have ihr := ih (acc ++ p.records) hc'.2 (by simp)
      rw [fetchLoop_cons_continue p (q :: rest2) acc hs hu hune, ihr]
      simp [allRecords, List.getLast_cons, List.append_assoc]

/-- C1: on a page chain in which every page but the last carries a
(non-empty) continuation reference and the last omits it, fetching with
`all_pages = true` issues exactly one request per page and aggregates
the pages' record lists by concatenation, in page order, preserving
record order within each page; the last page body is returned alongside. -/
theorem C1_fetch_all_pages {α : Type} (ps : List (SFResponse α)) (hne : ps ≠ [])
    (hc : isChain ps = true) :
    fetch_data ps true
      = (FetchOutcome.success (allRecords ps) (ps.getLast hne), ps.length) := by
  simpa [fetch_data] using fetchLoop_chain ps [] hc hne

theorem C1_fetch_all_pages_witness :
    fetch_data [⟨200, "", ["r1", "r2"], some "/query/01g-500"⟩,
        (⟨200, "", ["r3"], none⟩ : SFResponse String)] true
      = (FetchOutcome.success ["r1", "r2", "r3"] ⟨200, "", ["r3"], none⟩, 2) :=
  C1_fetch_all_pages
    [⟨200, "", ["r1", "r2"], some "/query/01g-500"⟩,
      (⟨200, "", ["r3"], none⟩ : SFResponse String)]
    (by decide) (by decide)

/-- C2: with `all_pages = false` the loop issues exactly one request no
matter what the first response looks like (in particular no matter
whether it carries a continuation reference), and when that response is
a success it returns exactly the first page's records. -/
theorem C2_single_page {α : Type} (r : SFResponse α) (rest : List (SFResponse α)) :
    (fetch_data (r :: rest) false).2 = 1
    ∧ (r.statusCode = 200 →
        fetch_data (r :: rest) false = (FetchOutcome.success r.records r, 1)) := by
  constructor
  · by_cases h : r.statusCode = 200 <;> simp [fetch_data, fetchLoop, h]
  · intro h
    simp [fetch_data, fetchLoop, h]

theorem C2_single_page_witness :
    (fetch_data [(⟨200, "", ["r1"], some "/query/next"⟩ : SFResponse String)] false).2 = 1
    ∧ fetch_data [(⟨200, "", ["r1"], some "/query/next"⟩ : SFResponse String)] false
        = (FetchOutcome.success ["r1"] ⟨200, "", ["r1"], some "/query/next"⟩, 1) :=
  ⟨(C2_single_page _ _).1, (C2_single_page _ _).2 rfl⟩

theorem fetchLoop_error_after {α : Type} (good : List (SFResponse α)) (bad : SFResponse α)
    (rest : List (SFResponse α)) (acc : List α)
    (hg : good.all continuesPage = true) (hb : bad.statusCode ≠ 200) :
    fetchLoop true (good ++ bad :: rest) acc
      = (FetchOutcome.fetchError bad.statusCode bad.text, good.length + 1) := by
  induction good generalizing acc with
  | nil => simp [fetchLoop, hb]
  | cons p g ih =>
    rw [List.all_cons, Bool.and_eq_true] at hg
    obtain ⟨hs, ⟨u, hu, hune⟩⟩ := continuesPage_spec hg.1
    have ihr := ih (acc ++ p.records) hg.2
    simp [fetchLoop, hs, hu, hune, ihr]

/-- C3: if the response at any page position (the first included) has a
status other than 200 while every earlier page succeeded with a
continuation, the loop stops right there — one request per page seen,
the failing one included — and surfaces the fetch error carrying that
response's status code and body; at the `main` level the execution
outcome is the fetch-failure message, so no records are handed to the
materializer, no table is displayed and no CSV is produced. -/
theorem C3_non200_aborts (good : List (SFResponse Record)) (bad : SFResponse Record)
    (rest : List (SFResponse Record)) (auth_data : AuthData) (creds : Credentials)
    (soql_query api_version : String) (use_tooling_api : Bool)
    (hg : good.all continuesPage = true) (hb : bad.statusCode ≠ 200)
    (hcred : resolveCredentials auth_data = Except.ok creds) (hq : soql_query ≠ "") :
    fetch_data (good ++ bad :: rest) true
      = (FetchOutcome.fetchError bad.statusCode bad.text, good.length + 1)
    ∧ runMain auth_data soql_query api_version use_tooling_api true (good ++ bad :: rest)
        = MainResult.fetchFailed
            ("Failed to fetch data: " ++ Nat.repr bad.statusCode ++ " " ++ bad.text)
    ∧ (∀ t, runMain auth_data soql_query api_version use_tooling_api true (good ++ bad :: rest)
        ≠ MainResult.displayed t)
    ∧ runMain auth_data soql_query api_version use_tooling_api true (good ++ bad :: rest)
        ≠ MainResult.noData := by
  have hf : fetch_data (good ++ bad :: rest) true
      = (FetchOutcome.fetchError bad.statusCode bad.text, good.length + 1) := by
    simpa [fetch_data] using fetchLoop_error_after good bad rest [] hg hb
  have hr : runMain auth_data soql_query api_version use_tooling_api true (good ++ bad :: rest)
      = MainResult.fetchFailed
          ("Failed to fetch data: " ++ Nat.repr bad.statusCode ++ " " ++ bad.text) := by
    simp [runMain, hcred, hq, hf]
  exact ⟨hf, hr, fun t => by simp [hr], by simp [hr]⟩

theorem C3_non200_aborts_witness :
    fetch_data
        [(⟨403, "\x7b\"message\":\"expired\"\x7d", [], none⟩ : SFResponse Record)] true
      = (FetchOutcome.fetchError 403 "\x7b\"message\":\"expired\"\x7d", 1)
    ∧ runMain ⟨some "tok1", none, some "x.example", none⟩ "SELECT Id FROM Account" "60.0"
        false true [(⟨403, "\x7b\"message\":\"expired\"\x7d", [], none⟩ : SFResponse Record)]
        = MainResult.fetchFailed
            ("Failed to fetch data: " ++ Nat.repr 403 ++ " " ++ "\x7b\"message\":\"expired\"\x7d")
    ∧ (∀ t, runMain ⟨some "tok1", none, some "x.example", none⟩ "SELECT Id FROM Account" "60.0"
        false true [(⟨403, "\x7b\"message\":\"expired\"\x7d", [], none⟩ : SFResponse Record)]
        ≠ MainResult.displayed t)
    ∧ runMain ⟨some "tok1", none, some "x.example", none⟩ "SELECT Id FROM Account" "60.0"
        false true [(⟨403, "\x7b\"message\":\"expired\"\x7d", [], none⟩ : SFResponse Record)]
        ≠ MainResult.noData :=
  C3_non200_aborts [] ⟨403, "\x7b\"message\":\"expired\"\x7d", [], none⟩ []
    ⟨some "tok1", none, some "x.example", none⟩ ⟨"tok1", "https://x.example"⟩
    "SELECT Id FROM Account" "60.0" false rfl (by decide) rfl (by decide)

/-- C8: an execution in which the fetch succeeds with zero aggregated
records ends in the distinct no-data outcome (the `No data found.`
warning), which is a different value from every error outcome — it is
not a credential error, not a fetch error and not a transport failure. -/
theorem C8_no_data_distinct (auth_data : AuthData) (creds : Credentials)
    (soql_query api_version : String) (use_tooling_api all_pages : Bool)
    (responses : List (SFResponse Record)) (last : SFResponse Record) (n : Nat)
    (hcred : resolveCredentials auth_data = Except.ok creds) (hq : soql_query ≠ "")
    (hfetch : fetch_data responses all_pages = (FetchOutcome.success [] last, n)) :
    runMain auth_data soql_query api_version use_tooling_api all_pages responses
      = MainResult.noData
    ∧ (∀ msg, MainResult.noData ≠ MainResult.credentialError msg)
    ∧ (∀ msg, MainResult.noData ≠ MainResult.fetchFailed msg)
    ∧ MainResult.noData ≠ MainResult.transportFailed := by
  refine ⟨?_, fun msg => by simp, fun msg => by simp, by simp⟩
  simp [runMain, hcred, hq, hfetch]

theorem C8_no_data_distinct_witness :
    runMain ⟨some "tok1", none, some "x.example", none⟩ "SELECT Id FROM Account" "60.0"
        false true [(⟨200, "", [], none⟩ : SFResponse Record)]
      = MainResult.noData
    ∧ (∀ msg, MainResult.noData ≠ MainResult.credentialError msg)
    ∧ (∀ msg, MainResult.noData ≠ MainResult.fetchFailed msg)
    ∧ MainResult.noData ≠ MainResult.transportFailed :=
  C8_no_data_distinct ⟨some "tok1", none, some "x.example", none⟩
    ⟨"tok1", "https://x.example"⟩ "SELECT Id FROM Account" "60.0" false true
    [(⟨200, "", [], none⟩ : SFResponse Record)] ⟨200, "", [], none⟩ 1
    rfl (by decide) rfl

theorem contains_iff_mem {l : List String} {a : String} :
    l.contains a = true ↔ a ∈ l := by
  simp [List.contains_iff_exists_mem_beq]

theorem mem_insertField {cols : List String} {k c : String} :
    c ∈ insertField cols k ↔ c ∈ cols ∨ c = k := by
  unfold insertField
  by_cases h : cols.contains k
  · have hk : k ∈ cols := contains_iff_mem.1 h
    rw [if_pos h]
    constructor
    · exact Or.inl
    · rintro (hc | rfl)
      · exact hc
      · exact hk
  · rw [if_neg h]
    simp [List.mem_append]

theorem mem_recordColumns {r : Record} :
    ∀ {cols : List String} {c : String},
      c ∈ recordColumns cols r ↔ c ∈ cols ∨ ∃ v, (c, v) ∈ r := by
  induction r with
  | nil => intro cols c; simp [recordColumns]
  | cons kv r' ih =>
    intro cols c
    obtain ⟨k, v⟩ := kv
    show c ∈ recordColumns (insertField cols k) r' ↔ _
    rw [ih, mem_insertField]
    constructor
    · rintro ((hc | rfl) | ⟨v', hv'⟩)
      · exact Or.inl hc
      · exact Or.inr ⟨v, List.mem_cons_self _ _⟩
      · exact Or.inr ⟨v', List.mem_cons_of_mem _ hv'⟩
    · rintro (hc | ⟨v', hv⟩)
      · exact Or.inl (Or.inl hc)
      · rcases List.mem_cons.1 hv with heq | hm
        · injection heq with h1 h2
          exact Or.inl (Or.inr h1)
        · exact Or.inr ⟨v', hm⟩

theorem mem_foldl_recordColumns :
    ∀ (rs : List Record) (cols : List String) (c : String),
      c ∈ rs.foldl recordColumns cols ↔ c ∈ cols ∨ ∃ r ∈ rs, ∃ v, (c, v) ∈ r := by
  intro rs
  induction rs with
  | nil => intro cols c; simp
  | cons r rs' ih =>
    intro cols c
    rw [List.foldl_cons, ih, mem_recordColumns]
    constructor
    · rintro ((hc | ⟨v, hv⟩) | ⟨r', hr', v, hv⟩)
      · exact Or.inl hc
      · exact Or.inr ⟨r, List.mem_cons_self _ _, v, hv⟩
      · exact Or.inr ⟨r', List.mem_cons_of_mem _ hr', v, hv⟩
    · rintro (hc | ⟨r', hr', v, hv⟩)
      · exact Or.inl (Or.inl hc)
      · rcases List.mem_cons.1 hr' with rfl | hm
        · exact Or.inl (Or.inr ⟨v, hv⟩)
        · exact Or.inr ⟨r', hm, v, hv⟩

theorem mem_unionColumns {records : List Record} {c : String} :
    c ∈ unionColumns records ↔ ∃ r ∈ records, ∃ v, (c, v) ∈ r := by
  simpa [unionColumns] using mem_foldl_recordColumns records [] c

theorem nodup_insertField {cols : List String} {k : String} (h : cols.Nodup) :
    (insertField cols k).Nodup := by
  unfold insertField
  by_cases hc : cols.contains k
  · rwa [if_pos hc]
  · rw [if_neg hc]
    have hk : k ∉ cols := fun hm => hc (contains_iff_mem.2 hm)
    simp [List.nodup_append, h, hk]

theorem nodup_recordColumns {r : Record} :
    ∀ {cols : List String}, cols.Nodup → (recordColumns cols r).Nodup := by
  induction r with
  | nil => intro _ h; simpa [recordColumns] using h
  | cons kv r' ih =>
    intro cols h
    exact ih (nodup_insertField h)

theorem nodup_foldl_recordColumns :
    ∀ (rs : List Record) {cols : List String}, cols.Nodup → (rs.foldl recordColumns cols).Nodup := by
  intro rs
  induction rs with
  | nil => intro _ h; simpa using h
  | cons r rs' ih =>
    intro cols h
    rw [List.foldl_cons]
    exact ih (nodup_recordColumns h)

theorem nodup_unionColumns (records : List Record) : (unionColumns records).Nodup :=
  nodup_foldl_recordColumns records List.nodup_nil

/-- C7: for a non-empty record sequence with possibly heterogeneous
field sets, the derived table has one row per record, its column set is
exactly the union of the field names occurring across all records (each
column listed once), every row is aligned to the full column list, the
cell of row `r` at column `c` is `r.lookup c`, and a field absent from
a record yields the null/missing marker `none` there — no error. -/
theorem C7_heterogeneous_table (records : List Record) (hne : records ≠ []) :
    (buildTable records).rows.length = records.length
    ∧ (∀ c, c ∈ (buildTable records).columns ↔ ∃ r ∈ records, ∃ v, (c, v) ∈ r)
    ∧ (buildTable records).columns.Nodup
    ∧ (buildTable records).rows
        = records.map (fun r => (buildTable records).columns.map (fun c => r.lookup c))
    ∧ (∀ row ∈ (buildTable records).rows, row.length = (buildTable records).columns.length)
    ∧ (∀ r ∈ records, ∀ c, (∀ v, (c, v) ∉ r) → r.lookup c = none) := by
  refine ⟨by simp [buildTable], fun c => mem_unionColumns, nodup_unionColumns records,
    rfl, ?_, ?_⟩
  · intro row hrow
    simp only [buildTable, List.mem_map] at hrow
    obtain ⟨r, _, rfl⟩ := hrow
    simp [buildTable]
  · intro r _ c hc
    rw [List.lookup_eq_none_iff]
    intro p hp
    have hne' : c ≠ p.1 := by
      rintro rfl
      exact hc p.2 (by simpa using hp)
    simpa [bne_iff_ne] using hne'

theorem C7_heterogeneous_table_witness :
    (buildTable [[("Id", "1"), ("Name", "Acme")], [("Id", "2"), ("Type", "X")]]).rows.length = 2
    ∧ buildTable [[("Id", "1"), ("Name", "Acme")], [("Id", "2"), ("Type", "X")]]
        = ⟨["Id", "Name", "Type"],
            [[some "1", some "Acme", none], [some "2", none, some "X"]]⟩ :=
  ⟨(C7_heterogeneous_table [[("Id", "1"), ("Name", "Acme")], [("Id", "2"), ("Type", "X")]]
      (by decide)).1,
    by decide⟩

theorem dropWhile_dropWhile {α : Type} (p : α → Bool) (l : List α) :
    (l.dropWhile p).dropWhile p = l.dropWhile p := by
  induction l with
  | nil => rfl
  | cons a t ih =>
    by_cases h : p a
    · rw [List.dropWhile_cons_of_pos h]
      exact ih
    · rw [List.dropWhile_cons_of_neg h, List.dropWhile_cons_of_neg h]

theorem head_false_of_dropWhile {α : Type} {p : α → Bool} :
    ∀ {l : List α} {b : α} {u : List α}, l.dropWhile p = b :: u → p b = false := by
  intro l
  induction l with
  | nil => intro b u h; simp at h
  | cons c r ih =>
    intro b u h
    by_cases hc : p c
    · rw [List.dropWhile_cons_of_pos hc] at h
      exact ih h
    · rw [List.dropWhile_cons_of_neg hc] at h
      injection h with h1 _
      cases h1
      simpa using hc

theorem dropWhile_append_both {α : Type} {p : α → Bool} {l m : List α}
    (hl : l.dropWhile p = l) (hm : m.dropWhile p = m) :
    (l ++ m).dropWhile p = l ++ m := by
  cases l with
  | nil => simpa using hm
  | cons b u =>
    have hb : p b = false := head_false_of_dropWhile hl
    rw [List.cons_append, List.dropWhile_cons_of_neg (by simp [hb])]

theorem dropWhile_stripL (l : List Char) :
    (stripL l).dropWhile pyWhitespace = stripL l := by
  cases h : stripL l with
  | nil => simp
  | cons b u =>
    have h1 : (stripL l).reverse
        = (l.dropWhile pyWhitespace).reverse.dropWhile pyWhitespace := by
      simp [stripL]
    have hsuff : (stripL l).reverse <:+ (l.dropWhile pyWhitespace).reverse := by
      rw [h1]
      exact List.dropWhile_suffix pyWhitespace
    have hpre : stripL l <+: l.dropWhile pyWhitespace := List.reverse_suffix.1 hsuff
    obtain ⟨w, hw⟩ := hpre
    rw [h] at hw
    have hb : pyWhitespace b = false := head_false_of_dropWhile (l := l) hw.symm
    rw [List.dropWhile_cons_of_neg (by simp [hb])]

theorem rev_stripL_dropWhile (l : List Char) :
    (stripL l).reverse.dropWhile pyWhitespace = (stripL l).reverse := by
  have h1 : (stripL l).reverse
      = (l.dropWhile pyWhitespace).reverse.dropWhile pyWhitespace := by
    simp [stripL]
  rw [h1, dropWhile_dropWhile]

theorem stripL_idem (l : List Char) : stripL (stripL l) = stripL l := by
  show (((stripL l).dropWhile pyWhitespace).reverse.dropWhile pyWhitespace).reverse = stripL l
  rw [dropWhile_stripL, rev_stripL_dropWhile, List.reverse_reverse]

theorem stripL_append_of_stripped {A T : List Char}
    (hA : A.dropWhile pyWhitespace = A)
    (hArev : A.reverse.dropWhile pyWhitespace = A.reverse)
    (hT : T.dropWhile pyWhitespace = T)
    (hTrev : T.reverse.dropWhile pyWhitespace = T.reverse) :
    stripL (A ++ T) = A ++ T := by
  show (((A ++ T).dropWhile pyWhitespace).reverse.dropWhile pyWhitespace).reverse = A ++ T
  rw [dropWhile_append_both hA hT, List.reverse_append, dropWhile_append_both hTrev hArev,
    ← List.reverse_append, List.reverse_reverse]

theorem pyStrip_idem (s : String) : pyStrip (pyStrip s) = pyStrip s :=
  congrArg String.mk (stripL_idem s.data)

theorem pyStrip_scheme_append (s : String) :
    pyStrip ("https://" ++ pyStrip s) = "https://" ++ pyStrip s := by
  show String.mk (stripL ("https://".data ++ stripL s.data)) = "https://" ++ pyStrip s
  rw [stripL_append_of_stripped (by decide) (by decide) (dropWhile_stripL s.data)
    (rev_stripL_dropWhile s.data)]
  rfl

theorem hasScheme_https_append (t : String) : hasScheme ("https://" ++ t) = true := by
  have h2 : startsWithStr "https://" ("https://" ++ t) = true := by
    simp [startsWithStr, String.data_append]
  simp [hasScheme, h2]

/-- C5: endpoint normalization strips the raw value and then prepends
`https://` exactly when the stripped value does not already start with
`http://` or `https://`, leaving it unchanged when it does; the whole
normalization is idempotent; and the spec's concrete scenario resolves
to `https://my-org.my.salesforce.com` with token `tok1`. -/
theorem C5_scheme_normalization (s : String) :
    (hasScheme (pyStrip s) = false → normalizeInstanceUrl s = "https://" ++ pyStrip s)
    ∧ (hasScheme (pyStrip s) = true → normalizeInstanceUrl s = pyStrip s)
    ∧ normalizeInstanceUrl (normalizeInstanceUrl s) = normalizeInstanceUrl s
    ∧ resolveCredentials ⟨none, some "tok1", none, some "my-org.my.salesforce.com"⟩
        = Except.ok ⟨"tok1", "https://my-org.my.salesforce.com"⟩ := by
  refine ⟨fun h => by simp [normalizeInstanceUrl, h],
    fun h => by simp [normalizeInstanceUrl, h], ?_, rfl⟩
  by_cases h : hasScheme (pyStrip s)
  · simp [normalizeInstanceUrl, h, pyStrip_idem]
  · simp [normalizeInstanceUrl, h, pyStrip_scheme_append, hasScheme_https_append]

theorem C5_scheme_normalization_witness :
    hasScheme (pyStrip "my-org.my.salesforce.com") = false
    ∧ normalizeInstanceUrl "my-org.my.salesforce.com"
        = "https://" ++ pyStrip "my-org.my.salesforce.com"
    ∧ normalizeInstanceUrl (normalizeInstanceUrl "my-org.my.salesforce.com")
        = normalizeInstanceUrl "my-org.my.salesforce.com" :=
  ⟨by decide, (C5_scheme_normalization "my-org.my.salesforce.com").1 (by decide),
    (C5_scheme_normalization "my-org.my.salesforce.com").2.2.1⟩

theorem takeWhile_append_host {l m : List Char}
    (hl : ∀ c ∈ l, isAuthorityChar c = true)
    (hm : m = [] ∨ ∃ t, m = '/' :: t) :
    (l ++ m).takeWhile isAuthorityChar = l := by
  induction l with
  | nil =>
    rcases hm with rfl | ⟨t, rfl⟩
    · rfl
    · rw [List.nil_append, List.takeWhile_cons_of_neg (by decide)]
  | cons a l' ih =>
    rw [List.cons_append, List.takeWhile_cons_of_pos (hl a (List.mem_cons_self _ _)),
      ih (fun c hc => hl c (List.mem_cons_of_mem _ hc))]

/-- C6: for a base URL made of a scheme (`https://` or `http://`), a
host free of path/query/fragment delimiters, and an optional path, the
request URL the app forms is the base's scheme and host followed by
`/services/data/v{apiVersion}/query` — or the `tooling/query` variant
when the Tooling API is selected — and then `?q=` with the query text
appended literally, with no percent-encoding applied to it. -/
theorem C6_request_url (host path api_version soql_query scheme : String)
    (use_tooling_api : Bool)
    (hscheme : scheme = "https://" ∨ scheme = "http://")
    (hhost : ∀ c ∈ host.data, isAuthorityChar c = true)
    (hpath : path = "" ∨ ∃ rest, path = "/" ++ rest) :
    buildFullUrl (scheme ++ host ++ path) api_version soql_query use_tooling_api
      = scheme ++ host ++ endpointPath api_version use_tooling_api ++ "?q=" ++ soql_query
    ∧ endpointPath api_version false = "/services/data/v" ++ api_version ++ "/query"
    ∧ endpointPath api_version true = "/services/data/v" ++ api_version ++ "/tooling/query" := by
  have hpath' : path.data = [] ∨ ∃ t, path.data = '/' :: t := by
    rcases hpath with rfl | ⟨r, rfl⟩
    · exact Or.inl rfl
    · exact Or.inr ⟨r.data, rfl⟩
  refine ⟨?_, rfl, rfl⟩
  rcases hscheme with rfl | rfl <;> cases use_tooling_api
  · have hcond1 : startsWithStr "http://"
        (endpointPath api_version false ++ ("?q=" ++ soql_query)) = false := rfl
    have hcond2 : startsWithStr "https://"
        (endpointPath api_version false ++ ("?q=" ++ soql_query)) = false := rfl
    have hsw1 : startsWithStr "https://" ("https://" ++ (host ++ path))
        = true := by simp [startsWithStr, String.data_append, List.append_assoc]
    have hauth : authorityOf (dropChars 8 ("https://" ++ (host ++ path))) = host := by
      show String.mk ((host.data ++ path.data).takeWhile isAuthorityChar) = host
      rw [takeWhile_append_host hhost hpath']
    simp [buildFullUrl, urljoin, schemeSplitOf, hcond1, hcond2, hsw1, hauth,
      String.append_assoc]
  · have hcond1 : startsWithStr "http://"
        (endpointPath api_version true ++ ("?q=" ++ soql_query)) = false := rfl
    have hcond2 : startsWithStr "https://"
        (endpointPath api_version true ++ ("?q=" ++ soql_query)) = false := rfl
    have hsw1 : startsWithStr "https://" ("https://" ++ (host ++ path))
        = true := by simp [startsWithStr, String.data_append, List.append_assoc]
    have hauth : authorityOf (dropChars 8 ("https://" ++ (host ++ path))) = host := by
      show String.mk ((host.data ++ path.data).takeWhile isAuthorityChar) = host
      rw [takeWhile_append_host hhost hpath']
    simp [buildFullUrl, urljoin, schemeSplitOf, hcond1, hcond2, hsw1, hauth,
      String.append_assoc]
  · have hcond1 : startsWithStr "http://"
        (endpointPath api_version false ++ ("?q=" ++ soql_query)) = false := rfl
    have hcond2 : startsWithStr "https://"
        (endpointPath api_version false ++ ("?q=" ++ soql_query)) = false := rfl
    have hsw1 : startsWithStr "https://" ("http://" ++ (host ++ path))
        = false := rfl
    have hsw2 : startsWithStr "http://" ("http://" ++ (host ++ path)) = true := by
      simp [startsWithStr, String.data_append, List.append_assoc]
    have hauth : authorityOf (dropChars 7 ("http://" ++ (host ++ path))) = host := by
      show String.mk ((host.data ++ path.data).takeWhile isAuthorityChar) = host
      rw [takeWhile_append_host hhost hpath']
    simp [buildFullUrl, urljoin, schemeSplitOf, hcond1, hcond2, hsw1, hsw2, hauth,
      String.append_assoc]
  · have hcond1 : startsWithStr "http://"
        (endpointPath api_version true ++ ("?q=" ++ soql_query)) = false := rfl
    have hcond2 : startsWithStr "https://"
        (endpointPath api_version true ++ ("?q=" ++ soql_query)) = false := rfl
    have hsw1 : startsWithStr "https://" ("http://" ++ (host ++ path))
        = false := rfl
    have hsw2 : startsWithStr "http://" ("http://" ++ (host ++ path)) = true := by
      simp [startsWithStr, String.data_append, List.append_assoc]
    have hauth : authorityOf (dropChars 7 ("http://" ++ (host ++ path))) = host := by
      show String.mk ((host.data ++ path.data).takeWhile isAuthorityChar) = host
      rw [takeWhile_append_host hhost hpath']
    simp [buildFullUrl, urljoin, schemeSplitOf, hcond1, hcond2, hsw1, hsw2, hauth,
      String.append_assoc]

theorem C6_request_url_witness :
    buildFullUrl ("https://" ++ "my-org.my.salesforce.com" ++ "") "60.0"
        "SELECT Id, Name FROM Account WHERE Name = 'A & B' LIMIT 10+1" false
      = "https://" ++ "my-org.my.salesforce.com"
          ++ endpointPath "60.0" false ++ "?q="
          ++ "SELECT Id, Name FROM Account WHERE Name = 'A & B' LIMIT 10+1" :=
  (C6_request_url "my-org.my.salesforce.com" "" "60.0"
    "SELECT Id, Name FROM Account WHERE Name = 'A & B' LIMIT 10+1" "https://" false
    (Or.inl rfl) (by decide) (Or.inl rfl)).1

end SoqlApp
